import Mathlib

/-!
Shallow embedding of the entity-interaction core of a 2D arcade shooter
(spaceship movement, fire cooldown, phase state machine, collision
resolution).  Rust `f32` values are modelled as exact rationals: every
constant appearing in the source (10, 7, 5, 2.5, 100, -300, ...) is exactly
representable in `f32`, and the operations used are comparisons, negation
and addition, so the rational model is faithful on the inputs considered.
-/

/-- The nine motion classes of the source enum `SpaceShipMovement`
(src/src/game/spaceship.rs). -/
inductive SpaceShipMovement where
  | Up
  | UpRight
  | Right
  | DownRight
  | Down
  | DownLeft
  | Left
  | UpLeft
  | Rest
deriving DecidableEq, Repr

open SpaceShipMovement

/-- Direction decoder: the `match` inside `handle_spaceship_keyboard_interaction`
(src/src/game/spaceship.rs).  Arguments are the pressed flags of
ArrowUp, ArrowDown, ArrowLeft, ArrowRight; arms are tried top to bottom
exactly as in the Rust `match`. -/
def decode_movement (up down left right : Bool) : SpaceShipMovement :=
  match up, down, left, right with
  | true, false, true, false => UpLeft
  | true, false, false, true => UpRight
  | false, true, true, false => DownLeft
  | false, true, false, true => DownRight
  | true, false, _, _ => Up
  | false, true, _, _ => Down
  | _, _, true, false => Left
  | _, _, false, true => Right
  | _, _, _, _ => Rest

/-- A 2D velocity, the `Velocity` component of the source
(`crate::util::Velocity`, fields `x` and `y`). -/
structure Velocity where
  x : ℚ
  y : ℚ
deriving DecidableEq, Repr

/-- Modelled from the spec: `get_left_edge` of the ui size module (not under
src/) computes the boundary at which an entity of width `sw` centred there is
fully inside a viewport of width `w` (spec 4.1); with the playable area centred
at the origin this is the negated half of the free width. -/
def get_left_edge (w sw : ℚ) : ℚ := -((w - sw) / 2)

/-- Modelled from the spec: `get_right_edge` of the ui size module (not under
src/), the symmetric right boundary (spec 4.1). -/
def get_right_edge (w sw : ℚ) : ℚ := (w - sw) / 2

/-- Modelled from the spec: `get_top_edge` of the ui size module (not under
src/), the top boundary for an entity of height `sh` in a viewport of height
`h` (spec 4.1). -/
def get_top_edge (h sh : ℚ) : ℚ := (h - sh) / 2

/-- Modelled from the spec: `get_bottom_edge` of the ui size module (not under
src/), the symmetric bottom boundary (spec 4.1). -/
def get_bottom_edge (h sh : ℚ) : ℚ := -((h - sh) / 2)

/-- Source `meet_left_edge` (src/src/game/spaceship.rs): the position is at or
past the left boundary.  The source obtains the spaceship size from
`get_spaceship_size(window.width())`, a ui function not under src/; the size
is passed here as the parameter `sw`. -/
def meet_left_edge (position w sw : ℚ) : Prop :=
  position ≤ get_left_edge w sw

/-- Source `meet_right_edge` (src/src/game/spaceship.rs). -/
def meet_right_edge (position w sw : ℚ) : Prop :=
  get_right_edge w sw ≤ position

/-- Source `meet_top_edge` (src/src/game/spaceship.rs). -/
def meet_top_edge (position h sh : ℚ) : Prop :=
  get_top_edge h sh ≤ position

/-- Source `meet_bottom_edge` (src/src/game/spaceship.rs). -/
def meet_bottom_edge (position h sh : ℚ) : Prop :=
  position ≤ get_bottom_edge h sh

instance (position w sw : ℚ) : Decidable (meet_left_edge position w sw) :=
  inferInstanceAs (Decidable (position ≤ get_left_edge w sw))

instance (position w sw : ℚ) : Decidable (meet_right_edge position w sw) :=
  inferInstanceAs (Decidable (get_right_edge w sw ≤ position))

instance (position h sh : ℚ) : Decidable (meet_top_edge position h sh) :=
  inferInstanceAs (Decidable (get_top_edge h sh ≤ position))

instance (position h sh : ℚ) : Decidable (meet_bottom_edge position h sh) :=
  inferInstanceAs (Decidable (position ≤ get_bottom_edge h sh))

/-- The `full_velocity` local of `handle_spaceship_movement`
(src/src/game/spaceship.rs): 10 when the window width is at least the
reference full-size width `wfull` (the constant `FULL_WINDOW_SIZE.x`, whose
defining module is not under src/ and is therefore a parameter), else 7. -/
def full_velocity (w wfull : ℚ) : ℚ := if wfull ≤ w then 10 else 7

/-- The `half_velocity` local of `handle_spaceship_movement`
(src/src/game/spaceship.rs): 7 at full size, else 5. -/
def half_velocity (w wfull : ℚ) : ℚ := if wfull ≤ w then 7 else 5

/-- The `velocity.x = match ...` statement of `handle_spaceship_movement`
(src/src/game/spaceship.rs): arms with failing edge guards fall through to
the final `_ => 0` arm. -/
def movement_vx (mv : SpaceShipMovement) (w sw wfull x : ℚ) : ℚ :=
  match mv with
  | Left => if ¬ meet_left_edge x w sw then -(full_velocity w wfull) else 0
  | UpLeft | DownLeft =>
      if ¬ meet_left_edge x w sw then -(half_velocity w wfull) else 0
  | Right => if ¬ meet_right_edge x w sw then full_velocity w wfull else 0
  | UpRight | DownRight =>
      if ¬ meet_right_edge x w sw then half_velocity w wfull else 0
  | _ => 0

/-- The `velocity.y = match ...` statement of `handle_spaceship_movement`
(src/src/game/spaceship.rs). -/
def movement_vy (mv : SpaceShipMovement) (w h sh wfull y : ℚ) : ℚ :=
  match mv with
  | Up => if ¬ meet_top_edge y h sh then full_velocity w wfull else 0
  | UpLeft | UpRight =>
      if ¬ meet_top_edge y h sh then half_velocity w wfull else 0
  | Down => if ¬ meet_bottom_edge y h sh then -(full_velocity w wfull) else 0
  | DownLeft | DownRight =>
      if ¬ meet_bottom_edge y h sh then -(half_velocity w wfull) else 0
  | _ => 0

/-- Source `handle_spaceship_movement` (src/src/game/spaceship.rs), the pure
velocity computation: given the triggered movement event, the window size
`(w, h)`, the spaceship size `(sw, sh)`, the reference full-size width
`wfull` and the current translation `(x, y)`, the velocity written back.
Rest short-circuits to zero; otherwise each axis is its Rust `match`. -/
def handle_spaceship_movement (mv : SpaceShipMovement) (w h sw sh wfull x y : ℚ) :
    Velocity :=
  if mv = Rest then ⟨0, 0⟩
  else ⟨movement_vx mv w sw wfull x, movement_vy mv w h sh wfull y⟩

/-- The controlled actor: the spaceship entity's `Transform` translation
(`x`, `y`), its `Velocity` (`vx`, `vy`) and the `Spaceship` component's
`bullet_cd` timer, modelled as the elapsed milliseconds of the 100 ms
once-timer when present. -/
structure Actor where
  x : ℚ
  y : ℚ
  vx : ℚ
  vy : ℚ
  bullet_cd : Option ℚ
deriving DecidableEq, Repr

/-- The observer `handle_spaceship_movement` as a whole-actor update: it
writes only the two velocity components, computed by the match above from
the read-only transform. -/
def handle_spaceship_movement_run (mv : SpaceShipMovement) (w h sw sh wfull : ℚ)
    (a : Actor) : Actor :=
  let v := handle_spaceship_movement mv w h sw sh wfull a.x a.y
  { a with vx := v.x, vy := v.y }

/-- Source `handle_bullet_cooldown` (src/src/game/spaceship.rs): when a
`bullet_cd` timer exists, tick it by the frame delta; once the elapsed time
reaches the 100 ms duration the timer is finished and the field is reset to
none.  The timer is modelled by its elapsed milliseconds; `Timer::finished`
for a once-timer is `elapsed ≥ duration`. -/
def handle_bullet_cooldown (cd : Option ℚ) (delta : ℚ) : Option ℚ :=
  match cd with
  | none => none
  | some e => if 100 ≤ e + delta then none else some (e + delta)

/-- Source `handle_shoot_bullet` (src/src/game/spaceship.rs): when Space is
held or the control mode is Hover, and no cooldown timer is present, trigger
a `ShootBulletEvent` at the actor's translation and start a fresh 100 ms
cooldown.  Returns the new cooldown state and the list of triggered spawn
events. -/
def handle_shoot_bullet (space hover : Bool) (x y : ℚ) (cd : Option ℚ) :
    Option ℚ × List (ℚ × ℚ) :=
  if space || hover then
    match cd with
    | none => (some 0, [(x, y)])
    | some e => (some e, [])
  else (cd, [])

/-- One InPlay FixedUpdate tick of the fire controller: the app chains
`handle_bullet_cooldown` before `handle_shoot_bullet`
(src/src/game/spaceship.rs plugin build). -/
def fire_tick (space hover : Bool) (x y delta : ℚ) (cd : Option ℚ) :
    Option ℚ × List (ℚ × ℚ) :=
  handle_shoot_bullet space hover x y (handle_bullet_cooldown cd delta)

/-- A run of fire-controller ticks with fixed input and position, collecting
every spawn event. -/
def fire_run (space hover : Bool) (x y : ℚ) :
    Option ℚ → List ℚ → Option ℚ × List (ℚ × ℚ)
  | cd, [] => (cd, [])
  | cd, d :: ds =>
    let t := fire_tick space hover x y d cd
    let r := fire_run space hover x y t.1 ds
    (r.1, t.2 ++ r.2)

/-- The entity registry seen by `handle_collisions`
(src/game/src/flow/app_game/in_play/collision.rs): `ufo_q e` is the `UFO`
component of entity handle `e` when present, carrying the position returned
by `ufo.get_position()`; `spaceship_q e` is the `Player` tag of `e` when `e`
has both `Player` and `Spaceship` components. -/
structure Entities where
  ufo_q : ℕ → Option (ℚ × ℚ)
  spaceship_q : ℕ → Option ℕ

/-- The deferred commands emitted through `Commands` by the collision
handler: `HealthReduceEvent::new(tag)`, inserting `Invisible` on the player
entity, spawning `Explosion::new(pos)`, and `RemoveUFOEvent::clean_up(e)`. -/
inductive Command where
  | healthReduce (tag : ℕ)
  | invisible (entity : ℕ)
  | explosion (pos : ℚ × ℚ)
  | removeUFO (entity : ℕ)
deriving DecidableEq, Repr

/-- Source `handle_ufo_spaceship_collision`
(src/game/src/flow/app_game/in_play/collision.rs): the four commands it
emits, in program order. -/
def handle_ufo_spaceship_collision (player player_entity : ℕ) (upos : ℚ × ℚ)
    (ufo_entity : ℕ) : List Command :=
  [Command.healthReduce player, Command.invisible player_entity,
    Command.explosion upos, Command.removeUFO ufo_entity]

/-- Source `handle_collisions`
(src/game/src/flow/app_game/in_play/collision.rs): scan the tick's
`CollidedEvent` batch; for each pair first try ufo(entity1) with
player(entity2), then player(entity1) with ufo(entity2); on the first match
`return` the emitted command set, ending the whole scan; otherwise move to
the next pair. -/
def handle_collisions (env : Entities) : List (ℕ × ℕ) → List Command
  | [] => []
  | (e1, e2) :: rest =>
    match env.ufo_q e1, env.spaceship_q e2 with
    | some ufo, some player => handle_ufo_spaceship_collision player e2 ufo e1
    | _, _ =>
      match env.spaceship_q e1, env.ufo_q e2 with
      | some player, some ufo => handle_ufo_spaceship_collision player e1 ufo e2
      | _, _ => handle_collisions env rest

/-- Modelled from the spec: the Side-Effect Dispatcher state (spec 4.6).
The handlers behind `HealthReduceEvent`, `Invisible`, `Explosion` and
`RemoveUFOEvent` are not under src/; per the spec, health is a per-player
counter keyed by owner-tag, the other commands mark, spawn and remove. -/
structure World where
  health : ℕ → ℤ
  invulnerable : List ℕ
  explosions : List (ℚ × ℚ)
  removed : List ℕ

/-- Modelled from the spec: applying one queued command (spec 4.6): health
reduction decrements the record keyed by the owner-tag; the other commands
record the invulnerability mark, the spawned explosion and the removal. -/
def apply_command (w : World) : Command → World
  | Command.healthReduce tag =>
      { w with health := fun t => if t = tag then w.health t - 1 else w.health t }
  | Command.invisible entity => { w with invulnerable := entity :: w.invulnerable }
  | Command.explosion pos => { w with explosions := pos :: w.explosions }
  | Command.removeUFO entity => { w with removed := entity :: w.removed }

/-- Modelled from the spec: the dispatcher applies the tick's queued commands
in order after resolution (spec 4.6, 5). -/
def dispatch (w : World) (cmds : List Command) : World :=
  cmds.foldl apply_command w

/-- A concrete registry: entity 0 is the player (tag 1) and entities 1 and 2
are hostiles at (10, 20) and (30, 40). -/
def env0 : Entities :=
  ⟨fun e => if e = 1 then some (10, 20) else if e = 2 then some (30, 40) else none,
    fun e => if e = 0 then some 1 else none⟩

/-- The two match phases relevant here: the source `GameState::Ready` (the
entry phase) and `GameState::InPlay` (active play). -/
inductive GameState where
  | Ready
  | InPlay
deriving DecidableEq, Repr

/-- The Entry-phase threshold of `check_spaceship_position`
(src/src/game/spaceship.rs): the transition fires once the spaceship's y
reaches `-window.height() / 2.5`. -/
def entry_threshold (h : ℚ) : ℚ := -h / 2.5

/-- The state the Ready-phase subsystem touches: the authoritative phase
value, the spaceship's vertical position and its vertical velocity. -/
structure ReadyState where
  phase : GameState
  y : ℚ
  vy : ℚ
deriving DecidableEq, Repr

/-- Modelled from the spec: during Entry the actor is driven upward by its
entry velocity each tick (spec 4.4); the system applying `Velocity` to
`Transform` is not under src/. -/
def entry_move (s : ReadyState) : ReadyState := { s with y := s.y + s.vy }

/-- Source `check_spaceship_position` (src/src/game/spaceship.rs, and its
`ready.rs` counterpart with the threshold from `EdgeUtil`): when the
spaceship's y has reached the threshold, zero the vertical velocity and set
the next state to InPlay. -/
def check_spaceship_position (h : ℚ) (s : ReadyState) : ReadyState :=
  if entry_threshold h ≤ s.y then { s with vy := 0, phase := GameState.InPlay }
  else s

/-- One Update tick of the Ready-phase subsystem: movement, then the
position check, the latter gated by `run_if(in_state(GameState::Ready))`. -/
def ready_tick (h : ℚ) (s : ReadyState) : ReadyState :=
  if (entry_move s).phase = GameState.Ready then
    check_spaceship_position h (entry_move s)
  else entry_move s

/-- The trajectory of Ready-phase ticks from the spawned state: phase Ready,
start height `y0`, entry velocity `vy0` (the source spawns with vy = 5). -/
def ready_traj (h y0 vy0 : ℚ) : ℕ → ReadyState
  | 0 => ⟨GameState.Ready, y0, vy0⟩
  | n + 1 => ready_tick h (ready_traj h y0 vy0 n)

/-- Source `handle_spaceship_movement` when the spaceship query may be
empty: the `let Ok(..) = query.get_single_mut() else { return; }` makes a
missing actor a graceful skip.  The outer option is the run outcome (none
models a panic, which this system never produces); the inner option is the
possibly missing actor. -/
def handle_spaceship_movement_sys (mv : SpaceShipMovement)
    (w h sw sh wfull : ℚ) (actor : Option Actor) : Option (Option Actor) :=
  match actor with
  | none => some none
  | some a => some (some (handle_spaceship_movement_run mv w h sw sh wfull a))

/-- Source `handle_shoot_bullet` with a possibly missing actor: when the
fire input is active the source calls `.get_single_mut().unwrap()` on the
spaceship query, which panics (modelled as none) when the actor is absent;
when the fire input is inactive the query is never touched. -/
def handle_shoot_bullet_sys (space hover : Bool) (actor : Option Actor) :
    Option (Option Actor × List (ℚ × ℚ)) :=
  if space || hover then
    match actor with
    | none => none
    | some a =>
      match a.bullet_cd with
      | none => some (some { a with bullet_cd := some 0 }, [(a.x, a.y)])
      | some _ => some (some a, [])
  else some (actor, [])

/-- Source `handle_bullet_cooldown` with a possibly missing actor: the
source unconditionally calls `.get_single_mut().unwrap()`, which panics
(none) when the actor is absent. -/
def handle_bullet_cooldown_sys (delta : ℚ) (actor : Option Actor) :
    Option Actor :=
  match actor with
  | none => none
  | some a => some { a with bullet_cd := handle_bullet_cooldown a.bullet_cd delta }

/-- Source `check_spaceship_position` with a possibly missing actor: the
source unconditionally calls `.get_single_mut().unwrap()`, which panics
(none) when the actor is absent. -/
def check_spaceship_position_sys (h : ℚ) (actor : Option Actor) :
    Option Actor :=
  match actor with
  | none => none
  | some a =>
    if entry_threshold h ≤ a.y then some { a with vy := 0 } else some a

/-- An if-then-else with zero else-branch is the value or zero. -/
theorem ite_eq_self_or_zero (c : Prop) [Decidable c] (v : ℚ) :
    (if c then v else 0) = v ∨ (if c then v else 0) = 0 := by
  split
  · exact Or.inl rfl
  · exact Or.inr rfl

/-- Each possible x-velocity written by the movement match is zero or a tier
magnitude. -/
theorem movement_vx_cases (mv : SpaceShipMovement) (w sw wfull x : ℚ) :
    movement_vx mv w sw wfull x = 0 ∨
    movement_vx mv w sw wfull x = full_velocity w wfull ∨
    movement_vx mv w sw wfull x = -(full_velocity w wfull) ∨
    movement_vx mv w sw wfull x = half_velocity w wfull ∨
    movement_vx mv w sw wfull x = -(half_velocity w wfull) := by
  cases mv <;> simp only [movement_vx] <;> (try tauto) <;> split <;> tauto

/-- Each possible y-velocity written by the movement match is zero or a tier
magnitude. -/
theorem movement_vy_cases (mv : SpaceShipMovement) (w h sh wfull y : ℚ) :
    movement_vy mv w h sh wfull y = 0 ∨
    movement_vy mv w h sh wfull y = full_velocity w wfull ∨
    movement_vy mv w h sh wfull y = -(full_velocity w wfull) ∨
    movement_vy mv w h sh wfull y = half_velocity w wfull ∨
    movement_vy mv w h sh wfull y = -(half_velocity w wfull) := by
  cases mv <;> simp only [movement_vy] <;> (try tauto) <;> split <;> tauto

/-- C3: the direction decoder is total over all 16 flag combinations, always
producing one of the 9 motion classes, and an opposing pair held on one axis
yields the same class as neither key on that axis. -/
theorem decode_movement_total_and_cancel :
    ∀ up down left right : Bool,
      decode_movement up down left right ∈
        [Up, UpRight, Right, DownRight, Down, DownLeft, Left, UpLeft, Rest] ∧
      decode_movement true true left right = decode_movement false false left right ∧
      decode_movement up down true true = decode_movement up down false false := by
  decide

/-- C4: when the actor is at or past an edge boundary, the velocity component
directed toward that edge is 0 for every movement that would point there,
and the component on the other axis never depends on the position along the
clamped axis. -/
theorem velocity_edge_clamp (w h sw sh wfull x y : ℚ) :
    (meet_left_edge x w sw →
      (handle_spaceship_movement Left w h sw sh wfull x y).x = 0 ∧
      (handle_spaceship_movement UpLeft w h sw sh wfull x y).x = 0 ∧
      (handle_spaceship_movement DownLeft w h sw sh wfull x y).x = 0) ∧
    (meet_right_edge x w sw →
      (handle_spaceship_movement Right w h sw sh wfull x y).x = 0 ∧
      (handle_spaceship_movement UpRight w h sw sh wfull x y).x = 0 ∧
      (handle_spaceship_movement DownRight w h sw sh wfull x y).x = 0) ∧
    (meet_top_edge y h sh →
      (handle_spaceship_movement Up w h sw sh wfull x y).y = 0 ∧
      (handle_spaceship_movement UpLeft w h sw sh wfull x y).y = 0 ∧
      (handle_spaceship_movement UpRight w h sw sh wfull x y).y = 0) ∧
    (meet_bottom_edge y h sh →
      (handle_spaceship_movement Down w h sw sh wfull x y).y = 0 ∧
      (handle_spaceship_movement DownLeft w h sw sh wfull x y).y = 0 ∧
      (handle_spaceship_movement DownRight w h sw sh wfull x y).y = 0) ∧
    (∀ (mv : SpaceShipMovement) (x2 : ℚ),
      (handle_spaceship_movement mv w h sw sh wfull x y).y =
        (handle_spaceship_movement mv w h sw sh wfull x2 y).y) ∧
    (∀ (mv : SpaceShipMovement) (y2 : ℚ),
      (handle_spaceship_movement mv w h sw sh wfull x y).x =
        (handle_spaceship_movement mv w h sw sh wfull x y2).x) := by
  refine ⟨fun hl => ?_, fun hr => ?_, fun ht => ?_, fun hb => ?_, ?_, ?_⟩
  · exact ⟨by simp [handle_spaceship_movement, movement_vx, movement_vy, hl],
      by simp [handle_spaceship_movement, movement_vx, movement_vy, hl], by simp [handle_spaceship_movement, movement_vx, movement_vy, hl]⟩
  · exact ⟨by simp [handle_spaceship_movement, movement_vx, movement_vy, hr],
      by simp [handle_spaceship_movement, movement_vx, movement_vy, hr], by simp [handle_spaceship_movement, movement_vx, movement_vy, hr]⟩
  · exact ⟨by simp [handle_spaceship_movement, movement_vx, movement_vy, ht],
      by simp [handle_spaceship_movement, movement_vx, movement_vy, ht], by simp [handle_spaceship_movement, movement_vx, movement_vy, ht]⟩
  · exact ⟨by simp [handle_spaceship_movement, movement_vx, movement_vy, hb],
      by simp [handle_spaceship_movement, movement_vx, movement_vy, hb], by simp [handle_spaceship_movement, movement_vx, movement_vy, hb]⟩
  · intro mv x2; cases mv <;> simp [handle_spaceship_movement, movement_vy]
  · intro mv y2; cases mv <;> simp [handle_spaceship_movement, movement_vx]

/-- Witness for C4 at the spec's end-to-end values: with window width 640 and
spaceship width 40 the left boundary is -300; the actor at x = -300 given a
Left input gets velocity.x = 0, not the negated full speed. -/
theorem velocity_edge_clamp_witness :
    get_left_edge 640 40 = -300 ∧
    (handle_spaceship_movement Left 640 480 40 40 1280 (-300) 0).x = 0 :=
  ⟨by norm_num [get_left_edge],
    ((velocity_edge_clamp 640 480 40 40 1280 (-300) 0).1
      (by norm_num [meet_left_edge, get_left_edge])).1⟩

/-- C8: speed tiers use an inclusive comparison against the reference
full-size width (equality selects the full tier), and diagonal motion away
from every edge puts the half magnitude on both components simultaneously. -/
theorem speed_tier_and_diagonal (w h sw sh wfull x y : ℚ) :
    (wfull ≤ w → full_velocity w wfull = 10 ∧ half_velocity w wfull = 7) ∧
    (w < wfull → full_velocity w wfull = 7 ∧ half_velocity w wfull = 5) ∧
    (¬ meet_top_edge y h sh → ¬ meet_right_edge x w sw →
      handle_spaceship_movement UpRight w h sw sh wfull x y =
        ⟨half_velocity w wfull, half_velocity w wfull⟩) ∧
    (¬ meet_bottom_edge y h sh → ¬ meet_left_edge x w sw →
      handle_spaceship_movement DownLeft w h sw sh wfull x y =
        ⟨-(half_velocity w wfull), -(half_velocity w wfull)⟩) := by
  refine ⟨fun hge => ?_, fun hlt => ?_, fun ht hr => ?_, fun hb hl => ?_⟩
  · simp [full_velocity, half_velocity, hge]
  · simp [full_velocity, half_velocity, not_le.mpr hlt]
  · simp [handle_spaceship_movement, movement_vx, movement_vy, ht, hr]
  · simp [handle_spaceship_movement, movement_vx, movement_vy, hb, hl]

/-- Witness for C8 at the exact boundary: window width equal to the reference
width 1280 selects the full tier (10, half 7), and a clear-of-edges UpRight
input at the origin yields velocity (7, 7). -/
theorem speed_tier_and_diagonal_witness :
    full_velocity 1280 1280 = 10 ∧ half_velocity 1280 1280 = 7 ∧
    handle_spaceship_movement UpRight 1280 960 40 40 1280 0 0 = ⟨7, 7⟩ := by
  have h := speed_tier_and_diagonal 1280 960 40 40 1280 0 0
  refine ⟨(h.1 le_rfl).1, (h.1 le_rfl).2, ?_⟩
  have hd := h.2.2.1 (by norm_num [meet_top_edge, get_top_edge])
    (by norm_num [meet_right_edge, get_right_edge])
  rw [hd, (h.1 le_rfl).2]

/-- C10: the movement observer writes only the velocity; the transform and
the fire-cooldown state are unchanged, and each written component is 0 or a
tier magnitude (plus or minus full or half). -/
theorem movement_frame_effect (mv : SpaceShipMovement) (w h sw sh wfull : ℚ)
    (a : Actor) :
    (handle_spaceship_movement_run mv w h sw sh wfull a).x = a.x ∧
    (handle_spaceship_movement_run mv w h sw sh wfull a).y = a.y ∧
    (handle_spaceship_movement_run mv w h sw sh wfull a).bullet_cd = a.bullet_cd ∧
    ((handle_spaceship_movement_run mv w h sw sh wfull a).vx = 0 ∨
      (handle_spaceship_movement_run mv w h sw sh wfull a).vx = full_velocity w wfull ∨
      (handle_spaceship_movement_run mv w h sw sh wfull a).vx = -(full_velocity w wfull) ∨
      (handle_spaceship_movement_run mv w h sw sh wfull a).vx = half_velocity w wfull ∨
      (handle_spaceship_movement_run mv w h sw sh wfull a).vx = -(half_velocity w wfull)) ∧
    ((handle_spaceship_movement_run mv w h sw sh wfull a).vy = 0 ∨
      (handle_spaceship_movement_run mv w h sw sh wfull a).vy = full_velocity w wfull ∨
      (handle_spaceship_movement_run mv w h sw sh wfull a).vy = -(full_velocity w wfull) ∨
      (handle_spaceship_movement_run mv w h sw sh wfull a).vy = half_velocity w wfull ∨
      (handle_spaceship_movement_run mv w h sw sh wfull a).vy = -(half_velocity w wfull)) := by
  refine ⟨rfl, rfl, rfl, ?_, ?_⟩
  · rcases eq_or_ne mv Rest with hmv | hmv
    · subst hmv; left; rfl
    · have hvx : (handle_spaceship_movement_run mv w h sw sh wfull a).vx =
          movement_vx mv w sw wfull a.x := by
        simp [handle_spaceship_movement_run, handle_spaceship_movement, hmv]
      rw [hvx]; exact movement_vx_cases mv w sw wfull a.x
  · rcases eq_or_ne mv Rest with hmv | hmv
    · subst hmv; left; rfl
    · have hvy : (handle_spaceship_movement_run mv w h sw sh wfull a).vy =
          movement_vy mv w h sh wfull a.y := by
        simp [handle_spaceship_movement_run, handle_spaceship_movement, hmv]
      rw [hvy]; exact movement_vy_cases mv w h sh wfull a.y

/-- Folding the cooldown from the cleared state stays cleared. -/
theorem cooldown_foldl_none (ds : List ℚ) :
    List.foldl handle_bullet_cooldown none ds = none := by
  induction ds with
  | nil => rfl
  | cons d rest ih => simpa [handle_bullet_cooldown] using ih

/-- While the accumulated time stays below the duration, the cooldown tracks
the running sum of deltas. -/
theorem cooldown_foldl_lt (ds : List ℚ) (hds : ∀ d ∈ ds, 0 ≤ d) :
    ∀ e : ℚ, e + ds.sum < 100 →
      List.foldl handle_bullet_cooldown (some e) ds = some (e + ds.sum) := by
  induction ds with
  | nil => intro e he; simp
  | cons d rest ih =>
    intro e he
    have hd : 0 ≤ d := hds d (List.mem_cons_self d rest)
    have hrest : ∀ x ∈ rest, 0 ≤ x := fun x hx => hds x (List.mem_cons_of_mem d hx)
    have hsum : 0 ≤ rest.sum := List.sum_nonneg hrest
    have hed : e + d < 100 := by
      have := he
      simp only [List.sum_cons] at this
      linarith
    have hstep : handle_bullet_cooldown (some e) d = some (e + d) := by
      simp [handle_bullet_cooldown, not_le.mpr hed]
    have htail : (e + d) + rest.sum < 100 := by
      simp only [List.sum_cons] at he
      linarith
    calc List.foldl handle_bullet_cooldown (some e) (d :: rest)
        = List.foldl handle_bullet_cooldown (some (e + d)) rest := by
          rw [List.foldl_cons, hstep]
      _ = some ((e + d) + rest.sum) := ih hrest (e + d) htail
      _ = some (e + (d :: rest).sum) := by rw [List.sum_cons]; ring_nf

/-- Once the accumulated time reaches the duration, the folded cooldown is
cleared (the stored elapsed time of a live timer is below the duration). -/
theorem cooldown_foldl_ge (ds : List ℚ) :
    ∀ e : ℚ, e < 100 → 100 ≤ e + ds.sum →
      List.foldl handle_bullet_cooldown (some e) ds = none := by
  induction ds with
  | nil =>
    intro e hlt he
    simp only [List.sum_nil, add_zero] at he
    exact absurd he (not_le.mpr hlt)
  | cons d rest ih =>
    intro e hlt he
    by_cases hed : 100 ≤ e + d
    · have hstep : handle_bullet_cooldown (some e) d = none := by
        simp [handle_bullet_cooldown, hed]
      rw [List.foldl_cons, hstep, cooldown_foldl_none]
    · have hstep : handle_bullet_cooldown (some e) d = some (e + d) := by
        simp [handle_bullet_cooldown, hed]
      rw [List.foldl_cons, hstep]
      apply ih (e + d) (not_le.mp hed)
      simp only [List.sum_cons] at he
      linarith

/-- A fire-controller run whose accumulated time stays below the duration
keeps the cooldown alive and spawns nothing. -/
theorem fire_run_lt (space hover : Bool) (x y : ℚ) (ds : List ℚ)
    (hds : ∀ d ∈ ds, 0 ≤ d) :
    ∀ e : ℚ, e + ds.sum < 100 →
      fire_run space hover x y (some e) ds = (some (e + ds.sum), []) := by
  induction ds with
  | nil => intro e he; simp [fire_run]
  | cons d rest ih =>
    intro e he
    have hrest : ∀ z ∈ rest, 0 ≤ z := fun z hz => hds z (List.mem_cons_of_mem d hz)
    have hsum : 0 ≤ rest.sum := List.sum_nonneg hrest
    have hed : e + d < 100 := by
      simp only [List.sum_cons] at he; linarith
    have hcd : handle_bullet_cooldown (some e) d = some (e + d) := by
      simp [handle_bullet_cooldown, not_le.mpr hed]
    have htick : fire_tick space hover x y d (some e) = (some (e + d), []) := by
      simp [fire_tick, handle_shoot_bullet, hcd]
    have htail : (e + d) + rest.sum < 100 := by
      simp only [List.sum_cons] at he; linarith
    simp only [fire_run, htick, ih hrest (e + d) htail, List.sum_cons,
      List.nil_append]
    rw [add_assoc]

/-- C6: a missing timer stays missing; an existing timer is advanced by the
tick's delta, cleared exactly when the accumulated elapsed time reaches the
100 ms duration; over any run of nonnegative deltas started at a fresh
timer, the timer is gone if and only if the total elapsed time reached the
duration. -/
theorem bullet_cooldown_spec (e delta : ℚ) (ds : List ℚ) :
    handle_bullet_cooldown none delta = none ∧
    (e + delta < 100 → handle_bullet_cooldown (some e) delta = some (e + delta)) ∧
    (100 ≤ e + delta → handle_bullet_cooldown (some e) delta = none) ∧
    ((∀ d ∈ ds, 0 ≤ d) →
      (List.foldl handle_bullet_cooldown (some 0) ds = none ↔ 100 ≤ ds.sum)) := by
  refine ⟨rfl, fun hlt => ?_, fun hge => ?_, fun hds => ⟨fun hnone => ?_, fun hge => ?_⟩⟩
  · simp [handle_bullet_cooldown, not_le.mpr hlt]
  · simp [handle_bullet_cooldown, hge]
  · by_contra hlt
    push_neg at hlt
    rw [cooldown_foldl_lt ds hds 0 (by linarith)] at hnone
    exact Option.noConfusion hnone
  · exact cooldown_foldl_ge ds 0 (by norm_num) (by linarith)

/-- Witness for C6: a 30 ms tick leaves a 50 ms timer at 80 ms; a 60 ms tick
clears it; two 60 + 50 ms ticks from a fresh timer clear it. -/
theorem bullet_cooldown_spec_witness :
    handle_bullet_cooldown (some 50) 30 = some 80 ∧
    handle_bullet_cooldown (some 50) 60 = none ∧
    List.foldl handle_bullet_cooldown (some 0) [60, 50] = none := by
  refine ⟨?_, ?_, ?_⟩
  · rw [(bullet_cooldown_spec 50 30 []).2.1 (by norm_num)]; norm_num
  · exact (bullet_cooldown_spec 50 60 []).2.2.1 (by norm_num)
  · refine ((bullet_cooldown_spec 0 0 [60, 50]).2.2.2 ?_).mpr (by norm_num)
    intro d hd
    rcases List.mem_cons.mp hd with h | h
    · rw [h]; norm_num
    · rcases List.mem_cons.mp h with h2 | h2
      · rw [h2]; norm_num
      · exact absurd h2 (List.not_mem_nil d)

/-- C5: on an InPlay tick (cooldown system chained before the shoot system),
a spawn event is emitted exactly when the fire input is active (Space held,
or Hover control mode) and no cooldown survives the tick's advance; the
spawn is at the actor's position and restarts a fresh cooldown; a surviving
cooldown suppresses the spawn and is left untouched by the shoot system; and
a run of fire-held ticks totalling less than 100 ms after a spawn emits no
further spawn. -/
theorem fire_controller_spec (space hover : Bool) (x y delta e : ℚ)
    (cd : Option ℚ) (ds : List ℚ) :
    ((fire_tick space hover x y delta cd).2 ≠ [] ↔
      ((space || hover) = true ∧ handle_bullet_cooldown cd delta = none)) ∧
    ((space || hover) = true → handle_bullet_cooldown cd delta = none →
      fire_tick space hover x y delta cd = (some 0, [(x, y)])) ∧
    (handle_bullet_cooldown cd delta = some e →
      (fire_tick space hover x y delta cd).2 = [] ∧
      (fire_tick space hover x y delta cd).1 = some e) ∧
    ((∀ d ∈ ds, 0 ≤ d) → ds.sum < 100 →
      (fire_run space hover x y (some 0) ds).2 = []) := by
  refine ⟨?_, fun hf hc => ?_, fun hc => ?_, fun hds hlt => ?_⟩
  · cases hb : (space || hover) <;>
      rcases hcd : handle_bullet_cooldown cd delta with _ | e2 <;>
        simp [fire_tick, handle_shoot_bullet, hb, hcd]
  · simp [fire_tick, handle_shoot_bullet, hf, hc]
  · cases hb : (space || hover) <;> simp [fire_tick, handle_shoot_bullet, hb, hc]
  · rw [fire_run_lt space hover x y ds hds 0 (by linarith)]

/-- Witness for C5: with Space held and no cooldown, a tick spawns at the
actor position and restarts the cooldown; with a live 50 ms cooldown the
same tick spawns nothing; two fire-held 30 ms ticks right after a spawn
emit nothing. -/
theorem fire_controller_spec_witness :
    fire_tick true false 1 2 0 none = (some 0, [(1, 2)]) ∧
    (fire_tick true false 1 2 0 (some 50)).2 = [] ∧
    (fire_run true false 1 2 (some 0) [30, 30]).2 = [] := by
  refine ⟨?_, ?_, ?_⟩
  · exact (fire_controller_spec true false 1 2 0 0 none []).2.1 rfl rfl
  · refine ((fire_controller_spec true false 1 2 0 50 (some 50) []).2.2.1 ?_).1
    simp [handle_bullet_cooldown]
    norm_num
  · refine (fire_controller_spec true false 1 2 0 0 none [30, 30]).2.2.2 ?_ (by norm_num)
    intro d hd
    rcases List.mem_cons.mp hd with h | h
    · rw [h]; norm_num
    · rcases List.mem_cons.mp h with h2 | h2
      · rw [h2]; norm_num
      · exact absurd h2 (List.not_mem_nil d)

/-- Counterexample to C1: the batch [(player 0, ufo 1), (ufo 2, player 0)]
contains two distinct player-hostile pairs, yet the scan returns after the
first one: only ufo 1's command set is emitted and ufo 2 is never removed,
not two independent command sets. -/
theorem collision_two_pairs_counterexample :
    env0.spaceship_q 0 = some 1 ∧
    env0.ufo_q 1 = some (10, 20) ∧
    env0.ufo_q 2 = some (30, 40) ∧
    handle_collisions env0 [(0, 1), (2, 0)] =
      handle_ufo_spaceship_collision 1 0 (10, 20) 1 ∧
    Command.removeUFO 2 ∉ handle_collisions env0 [(0, 1), (2, 0)] := by
  refine ⟨rfl, rfl, rfl, rfl, ?_⟩
  simp [handle_collisions, env0, handle_ufo_spaceship_collision]

/-- C1 amended: per batch the scanner emits at most one command set — that
of the first player-hostile pair (either ordering recognized, the
ufo-first ordering checked first) — and returns immediately; non-actionable
pairs (for instance hostile-hostile) are skipped and contribute nothing. -/
theorem collision_first_pair_only (env : Entities) (e1 e2 tag : ℕ)
    (upos : ℚ × ℚ) (rest : List (ℕ × ℕ)) :
    (env.ufo_q e1 = some upos → env.spaceship_q e2 = some tag →
      handle_collisions env ((e1, e2) :: rest) =
        handle_ufo_spaceship_collision tag e2 upos e1) ∧
    ((env.ufo_q e1 = none ∨ env.spaceship_q e2 = none) →
      env.spaceship_q e1 = some tag → env.ufo_q e2 = some upos →
      handle_collisions env ((e1, e2) :: rest) =
        handle_ufo_spaceship_collision tag e1 upos e2) ∧
    ((env.ufo_q e1 = none ∨ env.spaceship_q e2 = none) →
      (env.spaceship_q e1 = none ∨ env.ufo_q e2 = none) →
      handle_collisions env ((e1, e2) :: rest) = handle_collisions env rest) ∧
    handle_collisions env [] = [] := by
  refine ⟨fun h1 h2 => ?_, fun h1 h2 h3 => ?_, fun h1 h2 => ?_, rfl⟩
  · simp [handle_collisions, h1, h2]
  · rcases h1 with h1 | h1 <;> simp [handle_collisions, h1, h2, h3]
  · rcases h1 with h1 | h1 <;> rcases h2 with h2 | h2 <;>
      simp [handle_collisions, h1, h2]

/-- Witness for the amended C1: the ufo-first pair (1, 0) yields ufo 1's
command set; the hostile-hostile pair (1, 2) alone yields no commands. -/
theorem collision_first_pair_only_witness :
    handle_collisions env0 [(1, 0)] = handle_ufo_spaceship_collision 1 0 (10, 20) 1 ∧
    handle_collisions env0 [(1, 2)] = [] := by
  constructor
  · exact (collision_first_pair_only env0 1 0 1 (10, 20) []).1 rfl rfl
  · exact (collision_first_pair_only env0 1 2 0 (0, 0) []).2.2.1
      (Or.inr rfl) (Or.inl rfl)

/-- C7: a contact pair made of one player and one hostile, reported in
either ordering (roles being mutually exclusive), yields exactly the four
commands of `handle_ufo_spaceship_collision`, and dispatching them
decrements the player's health record by 1 (other tags untouched), marks
the player invulnerable, spawns one explosion at the hostile's position and
removes the hostile entity. -/
theorem collision_command_set (env : Entities) (p u tag : ℕ) (upos : ℚ × ℚ)
    (w0 : World) :
    env.spaceship_q p = some tag → env.ufo_q u = some upos →
    env.ufo_q p = none → env.spaceship_q u = none →
    handle_collisions env [(u, p)] =
      [Command.healthReduce tag, Command.invisible p,
        Command.explosion upos, Command.removeUFO u] ∧
    handle_collisions env [(p, u)] =
      [Command.healthReduce tag, Command.invisible p,
        Command.explosion upos, Command.removeUFO u] ∧
    (dispatch w0 (handle_collisions env [(p, u)])).health tag =
      w0.health tag - 1 ∧
    (∀ t : ℕ, t ≠ tag →
      (dispatch w0 (handle_collisions env [(p, u)])).health t = w0.health t) ∧
    (dispatch w0 (handle_collisions env [(p, u)])).invulnerable =
      p :: w0.invulnerable ∧
    (dispatch w0 (handle_collisions env [(p, u)])).explosions =
      upos :: w0.explosions ∧
    (dispatch w0 (handle_collisions env [(p, u)])).removed =
      u :: w0.removed := by
  intro hp hu hpu hup
  have hordered : handle_collisions env [(p, u)] =
      [Command.healthReduce tag, Command.invisible p,
        Command.explosion upos, Command.removeUFO u] := by
    simp [handle_collisions, hp, hu, hpu, handle_ufo_spaceship_collision]
  refine ⟨?_, hordered, ?_, ?_, ?_, ?_, ?_⟩
  · simp [handle_collisions, hp, hu, handle_ufo_spaceship_collision]
  · simp [hordered, dispatch, apply_command]
  · intro t ht; simp [hordered, dispatch, apply_command, ht]
  · simp [hordered, dispatch, apply_command]
  · simp [hordered, dispatch, apply_command]
  · simp [hordered, dispatch, apply_command]

/-- Witness for C7 at the concrete registry: player 0 (tag 1) against ufo 1
at (10, 20), starting from a world with health 3 everywhere. -/
theorem collision_command_set_witness :
    handle_collisions env0 [(1, 0)] =
      [Command.healthReduce 1, Command.invisible 0,
        Command.explosion (10, 20), Command.removeUFO 1] ∧
    (dispatch ⟨fun _ => 3, [], [], []⟩ (handle_collisions env0 [(0, 1)])).health 1 = 2 ∧
    (dispatch ⟨fun _ => 3, [], [], []⟩ (handle_collisions env0 [(0, 1)])).invulnerable = [0] ∧
    (dispatch ⟨fun _ => 3, [], [], []⟩ (handle_collisions env0 [(0, 1)])).explosions = [(10, 20)] ∧
    (dispatch ⟨fun _ => 3, [], [], []⟩ (handle_collisions env0 [(0, 1)])).removed = [1] := by
  have h := collision_command_set env0 0 1 1 (10, 20) ⟨fun _ => 3, [], [], []⟩
    rfl rfl rfl rfl
  refine ⟨h.1, ?_, h.2.2.2.2.1, h.2.2.2.2.2.1, h.2.2.2.2.2.2⟩
  rw [h.2.2.1]
  norm_num

/-- InPlay is absorbing for a single tick: the gated check never runs. -/
theorem ready_tick_inplay (h : ℚ) (s : ReadyState)
    (hs : s.phase = GameState.InPlay) :
    (ready_tick h s).phase = GameState.InPlay := by
  simp [ready_tick, entry_move, hs]

/-- InPlay is absorbing along the trajectory. -/
theorem ready_traj_absorb (h y0 vy0 : ℚ) (n : ℕ)
    (hn : (ready_traj h y0 vy0 n).phase = GameState.InPlay) :
    ∀ m, n ≤ m → (ready_traj h y0 vy0 m).phase = GameState.InPlay := by
  intro m hm
  induction m, hm using Nat.le_induction with
  | base => exact hn
  | succ m hm ih => exact ready_tick_inplay h (ready_traj h y0 vy0 m) ih

/-- If the trajectory is still Ready after a tick, it was Ready before. -/
theorem ready_phase_back (h y0 vy0 : ℚ) (n : ℕ)
    (hn : (ready_traj h y0 vy0 (n + 1)).phase = GameState.Ready) :
    (ready_traj h y0 vy0 n).phase = GameState.Ready := by
  by_contra hc
  have hp : (ready_traj h y0 vy0 n).phase = GameState.InPlay := by
    cases hpp : (ready_traj h y0 vy0 n).phase
    · exact absurd hpp hc
    · rfl
  have h2 : (ready_traj h y0 vy0 (n + 1)).phase = GameState.InPlay :=
    ready_tick_inplay h (ready_traj h y0 vy0 n) hp
  rw [hn] at h2
  exact GameState.noConfusion h2

/-- While still in Ready, the state is exactly the start state advanced by
n entry steps with the entry velocity intact. -/
theorem ready_canonical (h y0 vy0 : ℚ) (n : ℕ)
    (hn : (ready_traj h y0 vy0 n).phase = GameState.Ready) :
    ready_traj h y0 vy0 n = ⟨GameState.Ready, y0 + n * vy0, vy0⟩ := by
  induction n with
  | zero => simp [ready_traj]
  | succ n ih =>
    have hprev := ready_phase_back h y0 vy0 n hn
    have hc := ih hprev
    by_cases hth : entry_threshold h ≤ y0 + n * vy0 + vy0
    · exfalso
      have h2 : (ready_traj h y0 vy0 (n + 1)).phase = GameState.InPlay := by
        show (ready_tick h (ready_traj h y0 vy0 n)).phase = GameState.InPlay
        rw [hc]
        simp [ready_tick, entry_move, check_spaceship_position, hth]
      rw [hn] at h2
      exact GameState.noConfusion h2
    · show ready_tick h (ready_traj h y0 vy0 n) = _
      rw [hc]
      simp only [ready_tick, entry_move, check_spaceship_position]
      norm_num [hth]
      ring

/-- A tick whose accumulated entry motion reaches the threshold leaves the
phase InPlay. -/
theorem ready_crossing (h y0 vy0 : ℚ) (n : ℕ)
    (hcross : entry_threshold h ≤ y0 + ((n : ℚ) + 1) * vy0) :
    (ready_traj h y0 vy0 (n + 1)).phase = GameState.InPlay := by
  cases hp : (ready_traj h y0 vy0 n).phase
  · have hc := ready_canonical h y0 vy0 n hp
    show (ready_tick h (ready_traj h y0 vy0 n)).phase = GameState.InPlay
    rw [hc]
    have hth : entry_threshold h ≤ y0 + (n : ℚ) * vy0 + vy0 := by
      have he : y0 + ((n : ℚ) + 1) * vy0 = y0 + (n : ℚ) * vy0 + vy0 := by ring
      linarith [hcross, he.ge]
    simp [ready_tick, entry_move, check_spaceship_position, hth]
  · exact ready_traj_absorb h y0 vy0 n hp (n + 1) (Nat.le_succ n)

/-- A positive entry velocity eventually accumulates past the threshold. -/
theorem ready_exists_cross (h y0 vy0 : ℚ) (hv : 0 < vy0) :
    ∃ n : ℕ, entry_threshold h ≤ y0 + ((n : ℚ) + 1) * vy0 := by
  obtain ⟨n, hn⟩ := exists_nat_ge ((entry_threshold h - y0) / vy0)
  refine ⟨n, ?_⟩
  have h1 : (entry_threshold h - y0) / vy0 * vy0 ≤ (n : ℚ) * vy0 :=
    mul_le_mul_of_nonneg_right hn (le_of_lt hv)
  rw [div_mul_cancel₀ _ (ne_of_gt hv)] at h1
  have h2 : y0 + ((n : ℚ) + 1) * vy0 = y0 + (n : ℚ) * vy0 + vy0 := by ring
  linarith

/-- C2: from the spawned Ready state with a positive entry velocity, the
Entry-to-Active transition fires exactly once: there is a tick index n with
the phase Ready through tick n, InPlay from tick n+1 on with the entry
velocity zeroed at the transition, and no other tick is a
Ready-to-InPlay transition. -/
theorem phase_transition_once (h y0 vy0 : ℚ) (hv : 0 < vy0) :
    ∃ n : ℕ,
      (∀ k, k ≤ n → (ready_traj h y0 vy0 k).phase = GameState.Ready) ∧
      (ready_traj h y0 vy0 (n + 1)).phase = GameState.InPlay ∧
      (ready_traj h y0 vy0 (n + 1)).vy = 0 ∧
      (∀ m, n < m → (ready_traj h y0 vy0 m).phase = GameState.InPlay) ∧
      (∀ m, (ready_traj h y0 vy0 m).phase = GameState.Ready →
        (ready_traj h y0 vy0 (m + 1)).phase = GameState.InPlay → m = n) := by
  have hP : ∃ k, (ready_traj h y0 vy0 (k + 1)).phase = GameState.InPlay := by
    obtain ⟨n, hn⟩ := ready_exists_cross h y0 vy0 hv
    exact ⟨n, ready_crossing h y0 vy0 n hn⟩
  have hA : ∀ k, k ≤ Nat.find hP →
      (ready_traj h y0 vy0 k).phase = GameState.Ready := by
    intro k hk
    by_contra hc
    have hp : (ready_traj h y0 vy0 k).phase = GameState.InPlay := by
      cases hpp : (ready_traj h y0 vy0 k).phase
      · exact absurd hpp hc
      · rfl
    cases k with
    | zero => simp [ready_traj] at hp
    | succ j => exact Nat.find_min hP (Nat.lt_of_succ_le hk) hp
  have hn1 : (ready_traj h y0 vy0 (Nat.find hP + 1)).phase = GameState.InPlay :=
    Nat.find_spec hP
  have hcanon := ready_canonical h y0 vy0 (Nat.find hP) (hA (Nat.find hP) le_rfl)
  have hvy : (ready_traj h y0 vy0 (Nat.find hP + 1)).vy = 0 := by
    by_cases hth :
        entry_threshold h ≤ y0 + (Nat.find hP : ℚ) * vy0 + vy0
    · show (ready_tick h (ready_traj h y0 vy0 (Nat.find hP))).vy = 0
      rw [hcanon]
      simp [ready_tick, entry_move, check_spaceship_position, hth]
    · exfalso
      have hr : (ready_traj h y0 vy0 (Nat.find hP + 1)).phase = GameState.Ready := by
        show (ready_tick h (ready_traj h y0 vy0 (Nat.find hP))).phase = GameState.Ready
        rw [hcanon]
        simp [ready_tick, entry_move, check_spaceship_position, hth]
      rw [hr] at hn1
      exact GameState.noConfusion hn1
  have habsorb : ∀ m, Nat.find hP < m →
      (ready_traj h y0 vy0 m).phase = GameState.InPlay := fun m hm =>
    ready_traj_absorb h y0 vy0 (Nat.find hP + 1) hn1 m hm
  refine ⟨Nat.find hP, hA, hn1, hvy, habsorb, ?_⟩
  intro m hmr hmi
  have hle : Nat.find hP ≤ m := Nat.find_min' hP hmi
  by_contra hne
  have hlt : Nat.find hP < m := lt_of_le_of_ne hle (Ne.symm hne)
  have := habsorb m hlt
  rw [hmr] at this
  exact GameState.noConfusion this

/-- Witness for C2 at window height 250 (threshold -100), start height -150
and the source's entry velocity 5. -/
theorem phase_transition_once_witness :
    0 < (5 : ℚ) ∧
    (∃ n : ℕ,
      (∀ k, k ≤ n → (ready_traj 250 (-150) 5 k).phase = GameState.Ready) ∧
      (ready_traj 250 (-150) 5 (n + 1)).phase = GameState.InPlay ∧
      (ready_traj 250 (-150) 5 (n + 1)).vy = 0 ∧
      (∀ m, n < m → (ready_traj 250 (-150) 5 m).phase = GameState.InPlay) ∧
      (∀ m, (ready_traj 250 (-150) 5 m).phase = GameState.Ready →
        (ready_traj 250 (-150) 5 (m + 1)).phase = GameState.InPlay → m = n)) :=
  ⟨by norm_num, phase_transition_once 250 (-150) 5 (by norm_num)⟩

/-- Counterexample to C9: with the controlled actor absent, the cooldown
system, the shoot system under an active fire input, and the phase-check
system all hit `.unwrap()` and panic (modelled by a none outcome) instead
of skipping the tick's remaining work. -/
theorem missing_actor_counterexample :
    handle_bullet_cooldown_sys 1 none = none ∧
    handle_shoot_bullet_sys true false none = none ∧
    check_spaceship_position_sys 250 none = none :=
  ⟨rfl, rfl, rfl⟩

/-- C9 amended: only the movement resolver skips gracefully when the
required singleton actor is absent; the shoot system panics exactly when
the fire input is active, and the cooldown and phase-check systems always
panic on a missing actor. -/
theorem missing_actor_behavior (mv : SpaceShipMovement)
    (w h sw sh wfull delta hw : ℚ) (space hover : Bool) :
    handle_spaceship_movement_sys mv w h sw sh wfull none = some none ∧
    (handle_shoot_bullet_sys space hover none =
      if space || hover then none else some (none, [])) ∧
    handle_bullet_cooldown_sys delta none = none ∧
    check_spaceship_position_sys hw none = none := by
  refine ⟨rfl, ?_, rfl, rfl⟩
  cases space <;> cases hover <;> rfl
